import Mathlib

/-!
# Jordan Water Model (JWM): verification of the allocation core

Shallow embedding, in Lean 4, of the parts of the Jordan Water Model that the
specification's claims are about:

* the per-institution solver fallback cascades of `CWA.set_allocation`,
  `JVA.set_allocation_forecast` and `WAJ.set_allocation_forecast`
  (`JWM/components/institutions/government.py`);
* the remaining-months / past-months horizon index sets built by the same
  methods;
* the demand-node mass-balance and reservoir-storage constraint families of the
  Pyomo allocation models;
* the groundwater response engine `GWResponseEngine.run`
  (`JWM/engines/gw_module.py`);
* the tanker market clearing `TankerMarket.det_tanker_market_contracts`
  (`JWM/components/institutions/market.py`).

Python floats are modelled as rationals, Pyomo decision variables as functions
from index tuples to rationals, and a solver invocation as an
`Except Unit SolverResult`: `.error` means the call raised one of the caught
exception types (`ValueError`, `ApplicationError`), `.ok r` means the solver
returned a results object `r` carrying its status and termination condition.
-/

namespace JWM

/-! ## Solver results and the institution fallback cascades -/

/-- The part of a Pyomo results object that the cascades inspect:
`results.solver.status == SolverStatus.ok` and
`results.solver.termination_condition == TerminationCondition.optimal`. -/
structure SolverResult where
  statusOk : Bool
  termOptimal : Bool
deriving DecidableEq

/-- The combined check used everywhere in `government.py`:
`(results.solver.status == SolverStatus.ok) and
(results.solver.termination_condition == TerminationCondition.optimal)`. -/
def SolverResult.isOptimal (r : SolverResult) : Bool :=
  r.statusOk && r.termOptimal

/-- Outcome of invoking one solver backend on the model instance: either the
call raises (`.error`) or returns a results object (`.ok`). -/
abbrev Attempt : Type := Except Unit SolverResult

/-- Observable outcome of one allocation call's solve-and-extract phase:
which backends were attempted (in order), the final results object, or
`.error` when an exception escaped the allocation call, and whether the
variable-extraction loops after the solve block were reached and run. -/
structure CascadeRun where
  attempts : List String
  outcome : Except Unit SolverResult
  extracted : Bool

/-- The final results object exists and reports a non-optimal outcome, which
the institutions log as "failed to solve". -/
def CascadeRun.endedFailed (c : CascadeRun) : Prop :=
  ∀ r, c.outcome = Except.ok r → r.isOptimal = false

/-- `CWA.set_allocation`, solver block (government.py lines 326-364) followed
by the unconditional extraction loop (lines 365-404).  The ipopt solve is
wrapped in `try/except`; on a caught exception or a non-optimal result the
cplex solve runs *outside* any `try`, so a raising cplex call escapes the
method and the extraction loop is never reached.  When no exception escapes,
the extraction loop always runs, whatever the final status. -/
def CWA.solveCascade (ipopt cplex : Attempt) : CascadeRun :=
  match ipopt with
  | Except.ok r =>
    if r.isOptimal then ⟨["ipopt"], Except.ok r, true⟩
    else
      match cplex with
      | Except.ok r2 => ⟨["ipopt", "cplex"], Except.ok r2, true⟩
      | Except.error e => ⟨["ipopt", "cplex"], Except.error e, false⟩
  | Except.error _ =>
    match cplex with
    | Except.ok r2 => ⟨["ipopt", "cplex"], Except.ok r2, true⟩
    | Except.error e => ⟨["ipopt", "cplex"], Except.error e, false⟩

/-- `JVA.set_allocation_forecast`, solver block (government.py lines
1334-1372) followed by the unconditional extraction loops (lines 1379-1435).
Identical control flow to `CWA.solveCascade`: only the first (ipopt) solve is
guarded by `try/except`. -/
def JVA.solveCascade (ipopt cplex : Attempt) : CascadeRun :=
  match ipopt with
  | Except.ok r =>
    if r.isOptimal then ⟨["ipopt"], Except.ok r, true⟩
    else
      match cplex with
      | Except.ok r2 => ⟨["ipopt", "cplex"], Except.ok r2, true⟩
      | Except.error e => ⟨["ipopt", "cplex"], Except.error e, false⟩
  | Except.error _ =>
    match cplex with
    | Except.ok r2 => ⟨["ipopt", "cplex"], Except.ok r2, true⟩
    | Except.error e => ⟨["ipopt", "cplex"], Except.error e, false⟩

/-- Observable outcome of the WAJ solver block: backends attempted in order,
the value of `self.solver_status` after the block (or `.error` when an
exception escaped), and whether control reached the extraction loops. -/
structure WAJRun where
  attempts : List String
  finalStatus : Except Unit String
  extracted : Bool

/-- `WAJ.set_allocation_forecast`, solver block (government.py lines
2757-2817) followed by the unconditional extraction loops (lines 2819-2904).
`entry` is `self.solver_status` on entry (reset to `"ok"` by `WAJ.setup` each
timestep; a second call in the same timestep, made by `WAJForecastEngine` when
the first ended non-optimal, enters with a non-`"ok"` status and takes the
glpk branch).  In the `"ok"` branch both the ipopt and the cplex solves are
wrapped in `try/except`; the mutable flag updates collapse as follows:
ipopt optimal keeps `"ok"`; ipopt raised and cplex optimal leaves the flag at
`"ipopt_failed"` (the 2801 check only compares against `"cplex_failed"`);
every other combination ends at `"not_optimal"`.  In the glpk branch the
solve is not guarded, so a raising glpk call escapes; on success the entry
status is left unchanged. -/
def WAJ.setAllocationSolve (entry : String) (ipopt cplex glpk : Attempt) :
    WAJRun :=
  if entry = "ok" then
    match ipopt with
    | Except.ok r =>
      if r.isOptimal then ⟨["ipopt"], Except.ok "ok", true⟩
      else
        match cplex with
        | Except.ok r2 =>
          if r2.isOptimal then ⟨["ipopt", "cplex"], Except.ok "ok", true⟩
          else ⟨["ipopt", "cplex"], Except.ok "not_optimal", true⟩
        | Except.error _ => ⟨["ipopt", "cplex"], Except.ok "not_optimal", true⟩
    | Except.error _ =>
      match cplex with
      | Except.ok r2 =>
        if r2.isOptimal then ⟨["ipopt", "cplex"], Except.ok "ipopt_failed", true⟩
        else ⟨["ipopt", "cplex"], Except.ok "not_optimal", true⟩
      | Except.error _ => ⟨["ipopt", "cplex"], Except.ok "not_optimal", true⟩
  else
    match glpk with
    | Except.ok _ => ⟨["glpk"], Except.ok entry, true⟩
    | Except.error e => ⟨["glpk"], Except.error e, false⟩

/-- A backend attempt "fails": it either raises, or returns a results object
whose status/termination check is not optimal. -/
def attemptFails (a : Attempt) : Prop :=
  ∀ r, a = Except.ok r → r.isOptimal = false

/-! ## Horizon index sets: remaining and past months -/

/-- `rem_months` as built by `CWA.set_allocation` (government.py lines
129-138): for month 12 the list `[12, 1, ..., 11]`; otherwise
`range(month, 13)` extended, when the month is not January, by
`[1, ..., month-1]`. -/
def CWA.remMonths (month : ℕ) : List ℕ :=
  if month = 12 then
    12 :: (List.range 11).map (· + 1)
  else
    let base := (List.range (13 - month)).map (· + month)
    if month ≠ 1 then base ++ (List.range (month - 1)).map (· + 1) else base

/-- `past_months` as built by `CWA.set_allocation` (government.py lines
143-152): empty for month 12; otherwise `[12]` unless the current year is the
first simulated year, followed by `[1, ..., month-1]`. -/
def CWA.pastMonths (month : ℕ) (firstYear : Bool) : List ℕ :=
  if month = 12 then []
  else (if firstYear then [] else [12]) ++ (List.range (month - 1)).map (· + 1)

/-- `rem_months` as built by `JVA.set_allocation_forecast` (government.py
lines 696-702): for month 12 the list `[12, 1, ..., 11]`; otherwise
`range(month, 12)`, i.e. `[month, ..., 11]` with December absent. -/
def JVA.remMonths (month : ℕ) : List ℕ :=
  if month = 12 then
    12 :: (List.range 11).map (· + 1)
  else
    (List.range (12 - month)).map (· + month)

/-- `past_months` as built by `JVA.set_allocation_forecast` (government.py
lines 708-717), identical to the CWA construction. -/
def JVA.pastMonths (month : ℕ) (firstYear : Bool) : List ℕ :=
  if month = 12 then []
  else (if firstYear then [] else [12]) ++ (List.range (month - 1)).map (· + 1)

/-- The partition property asserted by the specification: every calendar
month `1..12` lies in exactly one of the two lists. -/
def monthsPartition (rem past : List ℕ) : Prop :=
  ∀ k ∈ Finset.Icc 1 12, (k ∈ rem ∧ k ∉ past) ∨ (k ∉ rem ∧ k ∈ past)

instance (rem past : List ℕ) : Decidable (monthsPartition rem past) := by
  unfold monthsPartition; infer_instance

instance : DecidableEq (Except Unit SolverResult) := fun a b =>
  match a, b with
  | Except.ok x, Except.ok y =>
    if h : x = y then isTrue (by rw [h]) else isFalse (by simp [h])
  | Except.ok _, Except.error _ => isFalse (by simp)
  | Except.error _, Except.ok _ => isFalse (by simp)
  | Except.error x, Except.error y => isTrue (by cases x; cases y; rfl)

/-! ## Claims C1 and C4: cascade failure behaviour -/

/-- Claim C1 as stated: whenever every configured backend fails (by raising
or by a non-optimal result), each of the three institution cascades attempts
ipopt then cplex exactly once, ends with a failed/not-optimal status, and no
exception escapes the allocation call. -/
def cascadeFailureClaim : Prop :=
  ∀ ipopt cplex : Attempt, attemptFails ipopt → attemptFails cplex →
    ((CWA.solveCascade ipopt cplex).attempts = ["ipopt", "cplex"] ∧
      (CWA.solveCascade ipopt cplex).outcome ≠ Except.error () ∧
      (CWA.solveCascade ipopt cplex).endedFailed) ∧
    ((JVA.solveCascade ipopt cplex).attempts = ["ipopt", "cplex"] ∧
      (JVA.solveCascade ipopt cplex).outcome ≠ Except.error () ∧
      (JVA.solveCascade ipopt cplex).endedFailed) ∧
    (∀ glpk : Attempt,
      (WAJ.setAllocationSolve "ok" ipopt cplex glpk).attempts = ["ipopt", "cplex"] ∧
      (WAJ.setAllocationSolve "ok" ipopt cplex glpk).finalStatus =
        Except.ok "not_optimal")

/-- C1, counterexample: when both backends raise at invocation, the CWA (and
JVA) cascade re-raises out of the allocation call: the cplex retry at
government.py lines 343-358 is not inside any `try/except`, so the exception
escapes, refuting the claim. -/
theorem C1_counterexample : ¬ cascadeFailureClaim := by
  intro h
  have h2 := h (Except.error ()) (Except.error ())
    (fun r hr => by cases hr) (fun r hr => by cases hr)
  exact h2.1.2.1 rfl

/-- Behaviour established by the amended claim C1, for backends that fail by
returning a non-optimal result (no raise): each cascade attempts ipopt then
cplex exactly once, in that order, ends failed/not-optimal, extraction-phase
control is reached, and no exception escapes; whereas an exception raised by
the cplex fallback escapes the CWA/JVA allocation call. -/
def cascadeNonOptimalBehavior (r1 r2 : SolverResult) : Prop :=
  (CWA.solveCascade (Except.ok r1) (Except.ok r2) =
    ⟨["ipopt", "cplex"], Except.ok r2, true⟩) ∧
  (JVA.solveCascade (Except.ok r1) (Except.ok r2) =
    ⟨["ipopt", "cplex"], Except.ok r2, true⟩) ∧
  (CWA.solveCascade (Except.ok r1) (Except.ok r2)).endedFailed ∧
  (JVA.solveCascade (Except.ok r1) (Except.ok r2)).endedFailed ∧
  (∀ glpk : Attempt,
    WAJ.setAllocationSolve "ok" (Except.ok r1) (Except.ok r2) glpk =
      ⟨["ipopt", "cplex"], Except.ok "not_optimal", true⟩) ∧
  (CWA.solveCascade (Except.error ()) (Except.error ())).outcome =
    Except.error () ∧
  (JVA.solveCascade (Except.error ()) (Except.error ())).outcome =
    Except.error ()

/-- C1, amended: when every backend fails by returning a non-optimal
termination status, the three cascades attempt ipopt then cplex in declared
order exactly once each and end with a failed/not-optimal status without
raising; but a backend that fails by raising is only contained at the first
cascade step — an exception raised by the cplex fallback escapes the CWA and
JVA allocation calls. -/
theorem C1_amended (r1 r2 : SolverResult)
    (h1 : r1.isOptimal = false) (h2 : r2.isOptimal = false) :
    cascadeNonOptimalBehavior r1 r2 := by
  refine ⟨?_, ?_, ?_, ?_, ?_, rfl, rfl⟩
  · simp [CWA.solveCascade, h1]
  · simp [JVA.solveCascade, h1]
  · intro r hr
    simp only [CWA.solveCascade, h1, Bool.false_eq_true, if_false] at hr
    cases hr
    exact h2
  · intro r hr
    simp only [JVA.solveCascade, h1, Bool.false_eq_true, if_false] at hr
    cases hr
    exact h2
  · intro glpk
    simp [WAJ.setAllocationSolve, h1, h2]

/-- C1, witness: the amended behaviour at the concrete non-optimal results
`⟨statusOk := true, termOptimal := false⟩` and
`⟨statusOk := false, termOptimal := true⟩`. -/
theorem C1_witness :
    SolverResult.isOptimal ⟨true, false⟩ = false ∧
    SolverResult.isOptimal ⟨false, true⟩ = false ∧
    cascadeNonOptimalBehavior ⟨true, false⟩ ⟨false, true⟩ :=
  ⟨by decide, by decide, C1_amended ⟨true, false⟩ ⟨false, true⟩ rfl rfl⟩

/-- Claim C4 as stated: when the cascade ends in failure, the extraction
loops are not run (the period is skipped with state unchanged). -/
def noExtractionOnFailureClaim : Prop :=
  ∀ ipopt cplex : Attempt, attemptFails ipopt → attemptFails cplex →
    (CWA.solveCascade ipopt cplex).extracted = false ∧
    (JVA.solveCascade ipopt cplex).extracted = false ∧
    (∀ glpk : Attempt,
      (WAJ.setAllocationSolve "ok" ipopt cplex glpk).extracted = false)

/-- C4, counterexample: with both backends returning non-optimal results
(e.g. `SolverStatus.ok` but a non-optimal termination condition), the CWA
cascade ends failed yet `extracted = true`: the extraction loop at
government.py line 365 follows the solve block unconditionally, with no
status check guarding it. -/
theorem C4_counterexample : ¬ noExtractionOnFailureClaim := by
  intro h
  have h2 := h (Except.ok ⟨true, false⟩) (Except.ok ⟨true, false⟩)
    (fun r hr => by cases hr; rfl) (fun r hr => by cases hr; rfl)
  have h3 := h2.1
  simp [CWA.solveCascade, SolverResult.isOptimal] at h3

/-- C4, amended: the extraction loops run unconditionally whenever control
returns from the solve block — in particular also when the cascade ended with
a failed/not-optimal status; solver statuses are used for logging (and, for
WAJ, recorded in `solver_status`) but never to guard extraction.  The only
way extraction is skipped is an exception escaping the allocation call. -/
theorem C4_amended (ipopt cplex glpk : Attempt) (entry : String)
    (hC : (CWA.solveCascade ipopt cplex).outcome ≠ Except.error ())
    (hW : (WAJ.setAllocationSolve entry ipopt cplex glpk).finalStatus ≠
      Except.error ()) :
    (CWA.solveCascade ipopt cplex).extracted = true ∧
    (JVA.solveCascade ipopt cplex).extracted = true ∧
    (WAJ.setAllocationSolve entry ipopt cplex glpk).extracted = true := by
  refine ⟨?_, ?_, ?_⟩
  · cases ipopt with
    | ok r =>
      by_cases hr : r.isOptimal = true
      · simp [CWA.solveCascade, hr]
      · cases cplex with
        | ok r2 => simp [CWA.solveCascade, hr]
        | error e =>
          exact absurd (by simp [CWA.solveCascade, hr]) hC
    | error e =>
      cases cplex with
      | ok r2 => simp [CWA.solveCascade]
      | error e2 => exact absurd (by simp [CWA.solveCascade]) hC
  · cases ipopt with
    | ok r =>
      by_cases hr : r.isOptimal = true
      · simp [JVA.solveCascade, hr]
      · cases cplex with
        | ok r2 => simp [JVA.solveCascade, hr]
        | error e =>
          exact absurd (by simp [CWA.solveCascade, hr]) hC
    | error e =>
      cases cplex with
      | ok r2 => simp [JVA.solveCascade]
      | error e2 => exact absurd (by simp [CWA.solveCascade]) hC
  · by_cases he : entry = "ok"
    · subst he
      cases ipopt with
      | ok r =>
        by_cases hr : r.isOptimal = true
        · simp [WAJ.setAllocationSolve, hr]
        · cases cplex with
          | ok r2 =>
            by_cases hr2 : r2.isOptimal = true <;>
              simp [WAJ.setAllocationSolve, hr, hr2]
          | error e => simp [WAJ.setAllocationSolve, hr]
      | error e =>
        cases cplex with
        | ok r2 =>
          by_cases hr2 : r2.isOptimal = true <;>
            simp [WAJ.setAllocationSolve, hr2]
        | error e2 => simp [WAJ.setAllocationSolve]
    · cases glpk with
      | ok r => simp [WAJ.setAllocationSolve, he]
      | error e =>
        exact absurd (by simp [WAJ.setAllocationSolve, he]) hW

/-- C4, witness: the amended statement at two concrete non-optimal results —
the cascade ends failed and extraction still runs. -/
theorem C4_witness :
    (CWA.solveCascade (Except.ok ⟨true, false⟩) (Except.ok ⟨true, false⟩)).extracted
        = true ∧
    (JVA.solveCascade (Except.ok ⟨true, false⟩) (Except.ok ⟨true, false⟩)).extracted
        = true ∧
    (WAJ.setAllocationSolve "ok" (Except.ok ⟨true, false⟩)
        (Except.ok ⟨true, false⟩) (Except.ok ⟨true, false⟩)).extracted = true :=
  C4_amended (Except.ok ⟨true, false⟩) (Except.ok ⟨true, false⟩)
    (Except.ok ⟨true, false⟩) "ok"
    (by simp [CWA.solveCascade, SolverResult.isOptimal])
    (by simp [WAJ.setAllocationSolve, SolverResult.isOptimal])

/-! ## Claim C3: horizon month sets -/

/-- Claim C3 as stated: for every calendar month and first-year flag, the
remaining/past month lists partition `{1..12}`, past months are empty in the
first simulated year, and at month 12 the remaining set is exactly `{12}`. -/
def horizonPartitionClaim : Prop :=
  ∀ month ∈ Finset.Icc 1 12, ∀ firstYear : Bool,
    (monthsPartition (CWA.remMonths month) (CWA.pastMonths month firstYear) ∧
      monthsPartition (JVA.remMonths month) (JVA.pastMonths month firstYear)) ∧
    (firstYear = true → CWA.pastMonths month firstYear = [] ∧
      JVA.pastMonths month firstYear = []) ∧
    (month = 12 → (CWA.remMonths month).toFinset = {12} ∧
      (JVA.remMonths month).toFinset = {12})

/-- C3, counterexample: at month 3 outside the first simulated year, December
belongs to both `rem_months` and `past_months` of `CWA.set_allocation`
(the `rem_months` list wraps around and always contains all twelve months),
so the two sets do not partition `{1..12}`. -/
theorem C3_counterexample : ¬ horizonPartitionClaim := by
  intro h
  have h2 := (h 3 (by decide) false).1.1 12 (by decide)
  revert h2
  decide

/-- The exact contents of the four horizon lists, as functions of the
calendar month and the first-simulated-year flag. -/
def horizonCharacterization (month : ℕ) (firstYear : Bool) : Prop :=
  (CWA.remMonths month).toFinset = Finset.Icc 1 12 ∧
  (JVA.remMonths month).toFinset =
    (if month = 12 then Finset.Icc 1 12 else Finset.Icc month 11) ∧
  (CWA.pastMonths month firstYear).toFinset =
    (if month = 12 then ∅ else
      (if firstYear then ∅ else {12}) ∪ Finset.Icc 1 (month - 1)) ∧
  JVA.pastMonths month firstYear = CWA.pastMonths month firstYear ∧
  (CWA.remMonths month).toFinset ∪ (CWA.pastMonths month firstYear).toFinset =
    Finset.Icc 1 12 ∧
  (monthsPartition (JVA.remMonths month) (JVA.pastMonths month firstYear) ↔
    (month = 12 ∨ firstYear = false))

instance (month : ℕ) (firstYear : Bool) :
    Decidable (horizonCharacterization month firstYear) := by
  unfold horizonCharacterization; infer_instance

/-- C3, amended: `CWA.set_allocation`'s `rem_months` always contains all
twelve calendar months (wrapped to start at the current month), while JVA's
contains `{month..11}` for months before December and all twelve months at
December; `past_months` holds the already-elapsed months `{1..month-1}` of
the year, preceded by the previous December except in the first simulated
year, and is empty at month 12.  Consequently the union of the two sets is
always `{1..12}`, but they overlap for CWA whenever `past_months` is
nonempty, and JVA's two sets form a partition exactly outside the first
simulated year or at month 12; in the first simulated year `past_months` is
`{1..month-1}`, not empty. -/
theorem C3_amended :
    ∀ month ∈ Finset.Icc 1 12, ∀ firstYear : Bool,
      horizonCharacterization month firstYear := by
  decide

/-- C3, witness: the characterization at month 5 outside the first simulated
year. -/
theorem C3_witness :
    5 ∈ Finset.Icc 1 12 ∧ horizonCharacterization 5 false :=
  ⟨by decide, C3_amended 5 (by decide) false⟩

/-! ## Allocation model constraints: link sums, mass balance, storage anchor -/

/-- Sum of link flows into `node` in `month`: the Pyomo rules build
`incoming_links` as the links `l` with `l[1] == node` and sum `Q[l, month]`
over them. -/
def linkInflowSum (links : List (String × String))
    (Q : String → String → ℕ → ℚ) (node : String) (month : ℕ) : ℚ :=
  ((links.filter fun l => l.2 = node).map fun l => Q l.1 l.2 month).sum

/-- Sum of link flows out of `node` in `month` (`outgoing_links`: links `l`
with `l[0] == node`). -/
def linkOutflowSum (links : List (String × String))
    (Q : String → String → ℕ → ℚ) (node : String) (month : ℕ) : ℚ :=
  ((links.filter fun l => l.1 = node).map fun l => Q l.1 l.2 month).sum

/-- The WAJ allocation model data used by its demand-node mass balance
(`WAJ.get_model` / `WAJ.set_allocation_forecast`): governorate demand nodes,
directed links, and the monthly demand forecast parameter. -/
structure WAJModel where
  links : List (String × String)
  demandNodes : List String
  demand : String → ℕ → ℚ

/-- WAJ decision variables: link flows `Q`, groundwater extraction `P`, and
the signed per-governorate deficit. -/
structure WAJVars where
  Q : String → String → ℕ → ℚ
  P : String → ℕ → ℚ
  deficit : String → ℕ → ℚ

/-- `mass_balance_demand` of `WAJ.set_allocation_forecast` (government.py
lines 2550-2586): for a demand node and month,
`(link inflow + extraction + deficit) - (link outflow + demand) == 0`. -/
def WAJ.massBalanceDemandRule (md : WAJModel) (v : WAJVars)
    (node : String) (month : ℕ) : Prop :=
  (linkInflowSum md.links v.Q node month + v.P node month +
      v.deficit node month) -
    (linkOutflowSum md.links v.Q node month + md.demand node month) = 0

instance (md : WAJModel) (v : WAJVars) (node : String) (month : ℕ) :
    Decidable (WAJ.massBalanceDemandRule md v node month) := by
  unfold WAJ.massBalanceDemandRule; infer_instance

/-- The constraint family `mass_balance_demand_const` is indexed by
`model.demand_nodes × model.months` with `months = range(1, 13)`
(government.py lines 2291, 2588). -/
def WAJ.satisfiesMassBalance (md : WAJModel) (v : WAJVars) : Prop :=
  ∀ node ∈ md.demandNodes, ∀ month ∈ Finset.Icc 1 12,
    WAJ.massBalanceDemandRule md v node month

/-- The JVA allocation model data used by its mass-balance and storage
constraints (`JVA.get_allocation_model` / `JVA.set_allocation_forecast`). -/
structure JVAModel where
  currentMonth : ℕ
  links : List (String × String)
  nonStorageNodes : List String
  storageNodes : List String
  cost : String → String → ℚ
  nrwFactor : ℚ
  inflow : String → ℕ → ℚ
  exogOutflow : String → ℕ → ℚ
  evap : String → ℕ → ℚ
  seepage : String → ℕ → ℚ
  initialStorage : String → ℚ

/-- JVA decision variables: link flows, deliveries, reservoir releases and
storages. -/
structure JVAVars where
  Q : String → String → ℕ → ℚ
  delivery : String → ℕ → ℚ
  release : String → ℕ → ℚ
  storage : String → ℕ → ℚ

/-- Link inflow net of conveyance losses, as in the JVA rules (government.py
lines 1017-1019): each incoming flow is reduced by
`Q * cost * 0.000006 * jva_nrw_factor`. -/
def JVA.netLinkInflowSum (md : JVAModel) (Q : String → String → ℕ → ℚ)
    (node : String) (month : ℕ) : ℚ :=
  ((md.links.filter fun l => l.2 = node).map fun l =>
    Q l.1 l.2 month -
      Q l.1 l.2 month * md.cost l.1 l.2 * (3 / 500000) * md.nrwFactor).sum

/-- `m_mass_balance_demand` of `JVA.set_allocation_forecast` (government.py
lines 990-1031): for a non-storage node and month,
`(net link inflow + exogenous inflow) -
(link outflow + delivery + exogenous outflow) == 0`. -/
def JVA.massBalanceDemandRule (md : JVAModel) (v : JVAVars)
    (node : String) (month : ℕ) : Prop :=
  (JVA.netLinkInflowSum md v.Q node month + md.inflow node month) -
    (linkOutflowSum md.links v.Q node month + v.delivery node month +
      md.exogOutflow node month) = 0

instance (md : JVAModel) (v : JVAVars) (node : String) (month : ℕ) :
    Decidable (JVA.massBalanceDemandRule md v node month) := by
  unfold JVA.massBalanceDemandRule; infer_instance

/-- The constraint family `m_mass_balance_demand_const` is indexed by
`model.non_storage_nodes × model.rem_months` (government.py line 1033). -/
def JVA.satisfiesMassBalance (md : JVAModel) (v : JVAVars) : Prop :=
  ∀ node ∈ md.nonStorageNodes, ∀ month ∈ JVA.remMonths md.currentMonth,
    JVA.massBalanceDemandRule md v node month

/-- The mass-balance equation shape asserted by claim C2: total link inflow
plus exogenous inflow plus extraction plus signed deficit, minus total link
outflow, delivered demand and exogenous scheduled outflow, equals zero. -/
def massBalanceEquation
    (linkIn exogIn extr deficit linkOut delivered exogOut : ℚ) : Prop :=
  linkIn + exogIn + extr + deficit - linkOut - delivered - exogOut = 0

/-- Instantiation of the claimed mass-balance template for both institutions:
WAJ demand nodes have no exogenous inflow/outflow terms (identically zero in
the model) and deliver the demand parameter exactly; JVA non-storage nodes
have no extraction or deficit variables (identically zero) and their link
inflow is net of conveyance losses. -/
def massBalanceTemplateHolds (wmd : WAJModel) (wv : WAJVars)
    (jmd : JVAModel) (jv : JVAVars) : Prop :=
  (∀ node ∈ wmd.demandNodes, ∀ month ∈ Finset.Icc 1 12,
    massBalanceEquation (linkInflowSum wmd.links wv.Q node month) 0
      (wv.P node month) (wv.deficit node month)
      (linkOutflowSum wmd.links wv.Q node month) (wmd.demand node month) 0) ∧
  (∀ node ∈ jmd.nonStorageNodes, ∀ month ∈ JVA.remMonths jmd.currentMonth,
    massBalanceEquation (JVA.netLinkInflowSum jmd jv.Q node month)
      (jmd.inflow node month) 0 0
      (linkOutflowSum jmd.links jv.Q node month) (jv.delivery node month)
      (jmd.exogOutflow node month))

/-- C2: every assignment satisfying the built models' demand-node
mass-balance constraint families satisfies, at every governed non-storage
(demand) node and every month of the respective horizon, the exact equality
`link inflow + exogenous inflow + extraction + signed deficit - link outflow
- delivered demand - exogenous outflow = 0`, where the terms absent from an
institution's formulation are identically zero. -/
theorem C2_mass_balance (wmd : WAJModel) (wv : WAJVars)
    (jmd : JVAModel) (jv : JVAVars)
    (hw : WAJ.satisfiesMassBalance wmd wv)
    (hj : JVA.satisfiesMassBalance jmd jv) :
    massBalanceTemplateHolds wmd wv jmd jv := by
  constructor
  · intro node hn month hm
    have h := hw node hn month hm
    unfold WAJ.massBalanceDemandRule at h
    unfold massBalanceEquation
    linarith
  · intro node hn month hm
    have h := hj node hn month hm
    unfold JVA.massBalanceDemandRule at h
    unfold massBalanceEquation
    linarith

/-- A one-demand-node WAJ model instance: one link into `amman`, demand 5. -/
def wajModelEx : WAJModel :=
  ⟨[("zai", "amman")], ["amman"], fun _ _ => 5⟩

/-- Flows delivering 2 by link and 3 by extraction, zero deficit. -/
def wajVarsEx : WAJVars :=
  ⟨fun a b _ => if a = "zai" ∧ b = "amman" then 2 else 0,
    fun _ _ => 3, fun _ _ => 0⟩

/-- A one-node JVA model instance: one link into `kac_1` with unit cost and
a nonzero loss factor, exogenous inflow 3. -/
def jvaModelEx : JVAModel :=
  ⟨1, [("r", "kac_1")], ["kac_1"], [], fun _ _ => 1, 1,
    fun _ _ => 3, fun _ _ => 0, fun _ _ => 0, fun _ _ => 0, fun _ => 0⟩

/-- Flow 500000 on the link (losing 3 to conveyance), delivery 500000. -/
def jvaVarsEx : JVAVars :=
  ⟨fun a b _ => if a = "r" ∧ b = "kac_1" then 500000 else 0,
    fun _ _ => 500000, fun _ _ => 0, fun _ _ => 0⟩

/-- C2, witness: the mass-balance template at the concrete instances. -/
theorem C2_mass_balance_witness :
    WAJ.satisfiesMassBalance wajModelEx wajVarsEx ∧
    JVA.satisfiesMassBalance jvaModelEx jvaVarsEx ∧
    massBalanceTemplateHolds wajModelEx wajVarsEx jvaModelEx jvaVarsEx := by
  have h1 : WAJ.satisfiesMassBalance wajModelEx wajVarsEx := by
    intro node hn month hm
    simp only [wajModelEx, List.mem_singleton] at hn
    subst hn
    norm_num [WAJ.massBalanceDemandRule, wajModelEx, wajVarsEx,
      linkInflowSum, linkOutflowSum]
    rfl
  have h2 : JVA.satisfiesMassBalance jvaModelEx jvaVarsEx := by
    intro node hn month hm
    simp only [jvaModelEx, List.mem_singleton] at hn
    subst hn
    norm_num [JVA.massBalanceDemandRule, JVA.netLinkInflowSum, jvaModelEx,
      jvaVarsEx, linkOutflowSum]
    rfl
  exact ⟨h1, h2, C2_mass_balance wajModelEx wajVarsEx jvaModelEx jvaVarsEx h1 h2⟩

/-! ## Claim C5: the anchor-month storage equality -/

/-- The CWA model data read by `res_balance_storage` (government.py lines
197-222, 252): current calendar month, pinned initial storage, inflow and
evaporation forecasts. -/
structure CWAStorageModel where
  currentMonth : ℕ
  initialStorage : String → ℚ
  inflow : String → ℕ → ℚ
  evap : String → ℕ → ℚ

/-- CWA decision variables: reservoir release, storage, spill. -/
structure CWAStorageVars where
  storage : String → ℕ → ℚ
  release : String → ℕ → ℚ
  spill : String → ℕ → ℚ

/-- `res_balance_storage` of `CWA.set_allocation` (government.py lines
252-264): the anchor month is pinned by an equality to `initial_storage`;
other months carry the storage transition from the previous month (December
for January). -/
def CWA.resBalanceStorageRule (md : CWAStorageModel) (v : CWAStorageVars)
    (node : String) (month : ℕ) : Prop :=
  if month = md.currentMonth then
    v.storage node month = md.initialStorage node
  else if month = 1 then
    v.storage node 1 - v.storage node 12 + v.release node 12 -
      md.inflow node 12 + md.evap node 12 + v.spill node 12 = 0
  else
    v.storage node month - v.storage node (month - 1) +
      v.release node (month - 1) - md.inflow node (month - 1) +
      md.evap node (month - 1) + v.spill node (month - 1) = 0

instance (md : CWAStorageModel) (v : CWAStorageVars) (node : String)
    (month : ℕ) : Decidable (CWA.resBalanceStorageRule md v node month) := by
  unfold CWA.resBalanceStorageRule; infer_instance

/-- `initial_storage` as computed by `CWA.set_allocation` (government.py
lines 204-209): the reservoir's current volume at the first timestep, an
adjusted volume at the second, and the last recorded volume thereafter. -/
def CWA.initialStorageOf (tsIdx : ℕ)
    (volume lastRelease histVolume : ℚ) : ℚ :=
  if tsIdx = 0 then volume
  else if tsIdx = 1 then volume - lastRelease + 1145846
  else histVolume

/-- `initial_storage` as computed by `JVA.set_allocation_forecast`
(government.py lines 889-894), with the observed initial-inflow adjustment at
the second timestep. -/
def JVA.initialStorageOf (tsIdx : ℕ)
    (volume lastRelease resInflowInitial histVolume : ℚ) : ℚ :=
  if tsIdx = 0 then volume
  else if tsIdx = 1 then volume - lastRelease + resInflowInitial
  else histVolume

/-- `res_balance_storage` of `JVA.set_allocation_forecast` (government.py
lines 1084-1133): the anchor month is pinned by an equality to
`initial_storage`; other months carry the storage transition (with net link
inflows, delivery, evaporation and seepage) from the previous month, which is
December for January when the current month is December. -/
def JVA.resBalanceStorageRule (md : JVAModel) (v : JVAVars)
    (node : String) (month : ℕ) : Prop :=
  if month = md.currentMonth then
    v.storage node month = md.initialStorage node
  else
    let p := if md.currentMonth = 12 ∧ month = 1 then 12 else month - 1
    v.storage node month - v.storage node p + v.release node p -
      md.inflow node p - JVA.netLinkInflowSum md v.Q node p +
      v.delivery node p + md.evap node p + md.seepage node p = 0

instance (md : JVAModel) (v : JVAVars) (node : String) (month : ℕ) :
    Decidable (JVA.resBalanceStorageRule md v node month) := by
  unfold JVA.resBalanceStorageRule; infer_instance

/-- Every calendar month appears in its own remaining-months list for both
institutions, so the anchor constraint is always generated. -/
theorem anchor_mem_remMonths :
    ∀ m ∈ Finset.Icc 1 12, m ∈ CWA.remMonths m ∧ m ∈ JVA.remMonths m := by
  decide

/-- C5: in every period, for every storage node of either built model, any
assignment satisfying the `res_balance_storage` constraint family has its
anchor-month storage variable exactly equal to the institution's tracked
current storage (the `initial_storage` value computed from the reservoir's
observed volume/history) — an equality with zero slack. -/
theorem C5_anchor_storage (cmd : CWAStorageModel) (cv : CWAStorageVars)
    (jmd : JVAModel) (jv : JVAVars) (cnode jnode : String)
    (tsIdx : ℕ) (vol rel resInfl hist : ℚ)
    (hcm : cmd.currentMonth ∈ Finset.Icc 1 12)
    (hjm : jmd.currentMonth ∈ Finset.Icc 1 12)
    (hcs : ∀ month ∈ CWA.remMonths cmd.currentMonth,
      CWA.resBalanceStorageRule cmd cv cnode month)
    (hjs : ∀ month ∈ JVA.remMonths jmd.currentMonth,
      JVA.resBalanceStorageRule jmd jv jnode month)
    (hci : cmd.initialStorage cnode = CWA.initialStorageOf tsIdx vol rel hist)
    (hji : jmd.initialStorage jnode =
      JVA.initialStorageOf tsIdx vol rel resInfl hist) :
    cv.storage cnode cmd.currentMonth =
        CWA.initialStorageOf tsIdx vol rel hist ∧
    jv.storage jnode jmd.currentMonth =
        JVA.initialStorageOf tsIdx vol rel resInfl hist := by
  constructor
  · have h := hcs cmd.currentMonth ((anchor_mem_remMonths _ hcm).1)
    rw [CWA.resBalanceStorageRule, if_pos rfl] at h
    rw [h, hci]
  · have h := hjs jmd.currentMonth ((anchor_mem_remMonths _ hjm).2)
    rw [JVA.resBalanceStorageRule, if_pos rfl] at h
    rw [h, hji]

/-- Constant assignment pinning all storages to the tracked value 7. -/
def cwaStorageVarsEx : CWAStorageVars :=
  ⟨fun _ _ => 7, fun _ _ => 0, fun _ _ => 0⟩

/-- A CWA storage model at month 4 with tracked storage 7. -/
def cwaStorageModelEx : CWAStorageModel :=
  ⟨4, fun _ => 7, fun _ _ => 0, fun _ _ => 0⟩

/-- A JVA model at month 4 with tracked storage 7 and no links. -/
def jvaStorageModelEx : JVAModel :=
  ⟨4, [], [], ["wehdah_res"], fun _ _ => 0, 1,
    fun _ _ => 0, fun _ _ => 0, fun _ _ => 0, fun _ _ => 0, fun _ => 7⟩

/-- Constant JVA assignment with storage 7 everywhere. -/
def jvaStorageVarsEx : JVAVars :=
  ⟨fun _ _ _ => 0, fun _ _ => 0, fun _ _ => 0, fun _ _ => 7⟩

/-- C5, witness: the anchor equality at a concrete period (timestep index 2,
month 4, tracked storage 7). -/
theorem C5_anchor_storage_witness :
    (∀ month ∈ CWA.remMonths 4,
      CWA.resBalanceStorageRule cwaStorageModelEx cwaStorageVarsEx
        "wehdah_res" month) ∧
    (∀ month ∈ JVA.remMonths 4,
      JVA.resBalanceStorageRule jvaStorageModelEx jvaStorageVarsEx
        "wehdah_res" month) ∧
    cwaStorageVarsEx.storage "wehdah_res" 4 =
      CWA.initialStorageOf 2 0 0 7 ∧
    jvaStorageVarsEx.storage "wehdah_res" 4 =
      JVA.initialStorageOf 2 0 0 0 7 := by
  have hc : ∀ month ∈ CWA.remMonths 4,
      CWA.resBalanceStorageRule cwaStorageModelEx cwaStorageVarsEx
        "wehdah_res" month := by
    intro month hm
    unfold CWA.resBalanceStorageRule cwaStorageModelEx cwaStorageVarsEx
    split
    · norm_num
    · split <;> norm_num
  have hj : ∀ month ∈ JVA.remMonths 4,
      JVA.resBalanceStorageRule jvaStorageModelEx jvaStorageVarsEx
        "wehdah_res" month := by
    intro month hm
    unfold JVA.resBalanceStorageRule jvaStorageModelEx jvaStorageVarsEx
    split
    · norm_num
    · norm_num [JVA.netLinkInflowSum, jvaStorageModelEx, jvaStorageVarsEx]
  have h5 := C5_anchor_storage cwaStorageModelEx cwaStorageVarsEx
    jvaStorageModelEx jvaStorageVarsEx "wehdah_res" "wehdah_res"
    2 0 0 0 7 (by decide) (by decide) hc hj
    (by norm_num [cwaStorageModelEx, CWA.initialStorageOf])
    (by norm_num [jvaStorageModelEx, JVA.initialStorageOf])
  exact ⟨hc, hj, h5.1, h5.2⟩

/-! ## Groundwater response engine (`GWResponseEngine.run`, gw_module.py) -/

/-- Unit-scaled pumping deviation consolidated in step 1 of
`GWResponseEngine.run` (gw_module.py lines 69-85): the deviation of actual
pumping from the node's fixed baseline, scaled into unit multiples by the
0.01 normalization, with the named ad hoc redirections applied verbatim (the
mukheibeh and maan wells are zeroed; the azraq layer-1 well keeps 75% of its
pumping and layer 2 receives the shifted 25%). -/
def GW.consolidatedPumping (name : String) (pump baseline urb01Pump : ℚ) : ℚ :=
  if name = "210401_ag_02" then 0
  else if name = "130104_urb_01" then (pump * (3 / 4) - baseline) / (1 / 100)
  else if name = "130104_urb_02" then
    (pump + urb01Pump * (1 / 4) - baseline) / (1 / 100)
  else if name = "330103_ag_01" then 0
  else (pump - baseline) / (1 / 100)

/-- Step 2 of `GWResponseEngine.run` (gw_module.py lines 88-93): the drawdown
increment added to `head[l][k]`.  Columns before the current month index
`timestep - 1` stay zero; columns at and after it receive
`-1.0 * Σ_i dd[i][l][k - (timestep-1)] * (pumping[i] * gw_response_factor)`
(the einsum `'ijk,il->ljk'` contracted against the sub-tensor
`dd[:, :, 0 : 1021 - timestep + 1]`).  For `timestep = 1` the code's first
branch writes every column with lag `k`, which this formula also yields. -/
def GW.addhead (dd : ℕ → ℕ → ℕ → ℚ) (pumping : ℕ → ℚ) (factor : ℚ)
    (nloc timestep : ℕ) (l k : ℕ) : ℚ :=
  if timestep - 1 ≤ k then
    -(∑ i ∈ Finset.range nloc,
        dd i l (k - (timestep - 1)) * (pumping i * factor))
  else 0

/-- Steps 2-3 of `GWResponseEngine.run` (gw_module.py lines 88-95): the new
head array is the old head array plus the drawdown increment. -/
def GW.run (dd : ℕ → ℕ → ℕ → ℚ) (pumping : ℕ → ℚ) (factor : ℚ)
    (nloc timestep : ℕ) (head : ℕ → ℕ → ℚ) : ℕ → ℕ → ℚ :=
  fun l k => head l k + GW.addhead dd pumping factor nloc timestep l k

/-- The unit-response coefficient in the sense of the specification's
glossary — the projected head change per scaled unit of pumping deviation —
is the negated drawdown-matrix entry times the response factor, because
`run` adds `-1.0 * dd * pumping * factor` to the head. -/
def GW.unitResponse (dd : ℕ → ℕ → ℕ → ℚ) (factor : ℚ) (i l k : ℕ) : ℚ :=
  -(dd i l k) * factor

/-- Columns strictly before the current month index receive a zero
increment. -/
theorem GW.addhead_past_zero (dd : ℕ → ℕ → ℕ → ℚ) (pumping : ℕ → ℚ)
    (factor : ℚ) (nloc t : ℕ) (l s : ℕ) (hs : s < t - 1) :
    GW.addhead dd pumping factor nloc t l s = 0 := by
  unfold GW.addhead
  rw [if_neg (by omega)]

/-- C6: for a run at timestep `t ≥ 2`, every head entry whose month index is
earlier than the current month index `t - 1` is left exactly equal to its
previously computed value, so re-invoking the projection for a completed past
month returns the identical previously stored head value. -/
theorem C6_append_only (dd : ℕ → ℕ → ℕ → ℚ) (pumping : ℕ → ℚ) (factor : ℚ)
    (nloc t : ℕ) (head : ℕ → ℕ → ℚ) (ht : 2 ≤ t) (l s : ℕ)
    (hs : s < t - 1) :
    GW.run dd pumping factor nloc t head l s = head l s := by
  unfold GW.run
  rw [GW.addhead_past_zero dd pumping factor nloc t l s hs]
  ring

/-- C6, witness: a run at timestep 3 leaves the month-1 entry of an arbitrary
concrete head array untouched. -/
theorem C6_append_only_witness :
    2 ≤ 3 ∧ 1 < 3 - 1 ∧
    GW.run (fun _ _ _ => 1) (fun _ => 2) 1 5 3 (fun l k => (l : ℚ) + k) 0 1 =
      (0 : ℚ) + 1 :=
  ⟨by decide, by decide,
    C6_append_only (fun _ _ _ => 1) (fun _ => 2) 1 5 3
      (fun l k => (l : ℚ) + k) (by decide) 0 1 (by decide)⟩

/-- C7: in the single-coefficient scenario — a single monitored location
whose unit-response coefficient (head change per scaled pumping unit, i.e.
the negated drawdown entry) is `-0.5` at lag 0 and zero everywhere else,
response factor 1, baseline pumping 10, actual pumping 12 (so the 0.01
normalization yields `(12 - 10)/0.01 = 200` unit multiples) — one run at
timestep `t ≥ 2` lowers the current month's head by exactly `0.5 * 200 = 100`
relative to its previous (baseline) value and leaves every prior month's head
value unchanged. -/
theorem C7_single_coefficient (dd : ℕ → ℕ → ℕ → ℚ) (t : ℕ) (ht : 2 ≤ t)
    (head : ℕ → ℕ → ℚ)
    (h1 : GW.unitResponse dd 1 0 0 0 = -(1 / 2))
    (h0 : ∀ i l k, ¬(i = 0 ∧ l = 0 ∧ k = 0) → GW.unitResponse dd 1 i l k = 0) :
    GW.run dd (fun _ => GW.consolidatedPumping "110101_urb_01" 12 10 0) 1 1 t
        head 0 (t - 1) =
      head 0 (t - 1) - (1 / 2) * 200 ∧
    ∀ l s, s < t - 1 →
      GW.run dd (fun _ => GW.consolidatedPumping "110101_urb_01" 12 10 0) 1 1
          t head l s = head l s := by
  constructor
  · have hdd : dd 0 0 0 = 1 / 2 := by
      unfold GW.unitResponse at h1
      linarith
    have hp : GW.consolidatedPumping "110101_urb_01" 12 10 0 = 200 := by
      unfold GW.consolidatedPumping
      rw [if_neg (by decide), if_neg (by decide), if_neg (by decide),
        if_neg (by decide)]
      norm_num
    unfold GW.run GW.addhead
    rw [if_pos (le_refl _), Finset.sum_range_one, Nat.sub_self, hdd, hp]
    ring
  · intro l s hs
    unfold GW.run
    rw [GW.addhead_past_zero _ _ _ _ _ _ _ hs]
    ring

/-- The drawdown tensor of the C7 scenario: a single nonzero entry `0.5`,
i.e. unit-response coefficient `-0.5`, at the self-pair of location 0 and
lag 0. -/
def gwDDEx : ℕ → ℕ → ℕ → ℚ :=
  fun i l k => if i = 0 ∧ l = 0 ∧ k = 0 then 1 / 2 else 0

/-- C7, witness: the scenario at timestep 2 over a flat baseline head of
1000: the current month (index 1) drops to 900 and month 0 stays at 1000. -/
theorem C7_single_coefficient_witness :
    GW.unitResponse gwDDEx 1 0 0 0 = -(1 / 2) ∧
    GW.run gwDDEx (fun _ => GW.consolidatedPumping "110101_urb_01" 12 10 0)
        1 1 2 (fun _ _ => 1000) 0 (2 - 1) = 1000 - (1 / 2) * 200 ∧
    GW.run gwDDEx (fun _ => GW.consolidatedPumping "110101_urb_01" 12 10 0)
        1 1 2 (fun _ _ => 1000) 0 0 = 1000 := by
  have h1 : GW.unitResponse gwDDEx 1 0 0 0 = -(1 / 2) := by
    norm_num [GW.unitResponse, gwDDEx]
  have h0 : ∀ i l k, ¬(i = 0 ∧ l = 0 ∧ k = 0) →
      GW.unitResponse gwDDEx 1 i l k = 0 := by
    intro i l k h
    unfold GW.unitResponse gwDDEx
    rw [if_neg h]
    ring
  have h7 := C7_single_coefficient gwDDEx 2 (by decide) (fun _ _ => 1000) h1 h0
  exact ⟨h1, h7.1, h7.2 0 0 (by decide)⟩

/-! ## Tanker market clearing (`TankerMarket.det_tanker_market_contracts`) -/

/-- The ipopt options the clearing engine ever touches: the four warm-start
options set on warm runs (market.py lines 1263-1266).  A freshly created
solver (`SolverFactory("ipopt")`, line 1223) has none of them set. -/
structure TankerSolverOptions where
  warmStartInitPoint : Bool
  warmStartBoundPush : Option ℚ
  warmStartMultBoundPush : Option ℚ
  muInit : Option ℚ

/-- The configuration of a freshly created solver: no warm-start options. -/
def TM.coldOptions : TankerSolverOptions := ⟨false, none, none, none⟩

/-- The configuration after B.3 (market.py lines 1263-1266):
`warm_start_init_point = 'yes'` and the three `1e-6` push/mu options. -/
def TM.warmOptions : TankerSolverOptions :=
  ⟨true, some (1 / 1000000), some (1 / 1000000), some (1 / 1000000)⟩

/-- The clearing engine's persistent state across periods:
`is_tanker_market_first_run` and `result_xs` (`None` until the first
successful solve; market.py lines 916-919, 1370). -/
structure TankerMarketState (α : Type) where
  firstRun : Bool
  resultXs : Option α

/-- Final value of `self.solver_status` after the solve block: `"ok"` or
`"ipopt failed twice"`. -/
inductive TankerSolveStatus
  | ok
  | failedTwice
deriving DecidableEq

/-- Observable outcome of one clearing call: the solver configuration in
force at each attempt, the final status, the updated persistent state, and
the `result_xs` the disaggregation phase reads (`.error` when that read
raises because `result_xs` is still `None`). -/
structure TankerClearRun (α : Type) where
  attemptConfigs : List TankerSolverOptions
  status : TankerSolveStatus
  finalState : TankerMarketState α
  outcome : Except Unit α

/-- Solve-and-update skeleton of `det_tanker_market_contracts` (market.py
lines 1081-1083, 1223-1250, 1261-1266 and 1349-1372).  On the first run the
freshly created solver is cold; on warm runs B.3 sets the warm-start options.
The primary solve and the single retry both run `self.opt.solve` with the
*same, unmodified* options.  If either attempt returns, `result_xs` is
replaced by the new solution; if both raise, the previous `result_xs` is
kept and the disaggregation reads it — which on a first-run double failure
dereferences `None` and raises out of the clearing call. -/
def TM.clearSolvePhase {α : Type} (st : TankerMarketState α)
    (attempt1 attempt2 : Except Unit α) : TankerClearRun α :=
  let opts := if st.firstRun then TM.coldOptions else TM.warmOptions
  match attempt1 with
  | Except.ok r =>
    ⟨[opts], TankerSolveStatus.ok, ⟨false, some r⟩, Except.ok r⟩
  | Except.error _ =>
    match attempt2 with
    | Except.ok r =>
      ⟨[opts, opts], TankerSolveStatus.ok, ⟨false, some r⟩, Except.ok r⟩
    | Except.error _ =>
      match st.resultXs with
      | some prev =>
        ⟨[opts, opts], TankerSolveStatus.failedTwice, ⟨false, some prev⟩,
          Except.ok prev⟩
      | none =>
        ⟨[opts, opts], TankerSolveStatus.failedTwice, ⟨false, none⟩,
          Except.error ()⟩

/-- The warm-start configuration differs from the cold one. -/
theorem TM.warm_ne_cold : TM.warmOptions ≠ TM.coldOptions := by
  intro h
  have h2 := congrArg TankerSolverOptions.warmStartInitPoint h
  simp [TM.warmOptions, TM.coldOptions] at h2

/-- Claim C8 as stated: on a solver error the engine retries once with the
same solver *after resetting to a cold configuration*, and in no case does an
unhandled error propagate out of the clearing call. -/
def tankerRetryClaim : Prop :=
  ∀ (st : TankerMarketState Unit) (a1 a2 : Except Unit Unit),
    (∀ e, a1 = Except.error e →
      (TM.clearSolvePhase st a1 a2).attemptConfigs =
        [if st.firstRun then TM.coldOptions else TM.warmOptions,
          TM.coldOptions]) ∧
    (TM.clearSolvePhase st a1 a2).outcome ≠ Except.error ()

/-- C8, counterexample: on a warm-run clearing call whose primary solve
raises, the retry runs under the unchanged warm configuration, not a cold
one (nothing between the two `self.opt.solve` calls touches
`self.opt.options`); and on a first-period call where both attempts raise,
the disaggregation reads the still-`None` `result_xs` and the error escapes
the clearing call. -/
theorem C8_counterexample : ¬ tankerRetryClaim := by
  intro h
  have h2 := (h ⟨false, some ()⟩ (Except.error ()) (Except.error ())).1 () rfl
  have h3 : TM.warmOptions = TM.coldOptions := by
    have h4 : ([TM.warmOptions, TM.warmOptions] :
        List TankerSolverOptions) = [TM.warmOptions, TM.coldOptions] := h2
    exact (List.cons.injEq _ _ _ _).mp
      ((List.cons.injEq _ _ _ _).mp h4).2 |>.1
  exact TM.warm_ne_cold h3

/-- Behaviour established by the amended claim C8, for one clearing call with
persistent state `st`: a successful primary solve is a single attempt; on a
primary-solve error there is exactly one retry with the same solver under the
same (unchanged, still warm on warm runs) configuration; a double failure
keeps the previous period's cleared results and reports `failedTwice`; and no
error escapes provided a previous successful solve exists. -/
def tankerClearBehavior {α : Type} (st : TankerMarketState α)
    (a1 a2 : Except Unit α) : Prop :=
  ((∃ r, a1 = Except.ok r) →
    (TM.clearSolvePhase st a1 a2).attemptConfigs =
      [if st.firstRun then TM.coldOptions else TM.warmOptions]) ∧
  (a1 = Except.error () →
    (TM.clearSolvePhase st a1 a2).attemptConfigs =
      [if st.firstRun then TM.coldOptions else TM.warmOptions,
        if st.firstRun then TM.coldOptions else TM.warmOptions]) ∧
  (a1 = Except.error () → a2 = Except.error () →
    (TM.clearSolvePhase st a1 a2).finalState.resultXs = st.resultXs ∧
    (TM.clearSolvePhase st a1 a2).status = TankerSolveStatus.failedTwice) ∧
  (∀ prev, st.resultXs = some prev →
    (TM.clearSolvePhase st a1 a2).outcome ≠ Except.error ())

/-- C8, amended: the clearing call performs a primary ipopt solve and, on a
solver error, exactly one retry with the same solver under its unchanged
configuration (no cold reset); if both attempts fail it keeps the previous
period's cleared volumes and prices and logs the failure; and no unhandled
error propagates to the caller whenever a previous successful solve exists
(on a first-period double failure the read of the never-assigned previous
results raises). -/
theorem C8_amended {α : Type} (st : TankerMarketState α)
    (a1 a2 : Except Unit α) : tankerClearBehavior st a1 a2 := by
  refine ⟨?_, ?_, ?_, ?_⟩
  · rintro ⟨r, rfl⟩
    rfl
  · rintro rfl
    cases a2 with
    | ok r => rfl
    | error e =>
      cases he : st.resultXs with
      | some prev => simp [TM.clearSolvePhase, he]
      | none => simp [TM.clearSolvePhase, he]
  · rintro rfl rfl
    cases he : st.resultXs with
    | some prev => simp [TM.clearSolvePhase, he]
    | none => simp [TM.clearSolvePhase, he]
  · intro prev hprev
    cases a1 with
    | ok r => simp [TM.clearSolvePhase]
    | error e =>
      cases a2 with
      | ok r => cases e; simp [TM.clearSolvePhase]
      | error e2 => cases e; cases e2; simp [TM.clearSolvePhase, hprev]

/-- C8, witness: the amended behaviour on a warm-run call with previous
results `5` whose two attempts both raise: the retry configuration is still
warm, the previous results are kept, and no error escapes. -/
theorem C8_witness :
    tankerClearBehavior (⟨false, some (5 : ℚ)⟩ : TankerMarketState ℚ)
      (Except.error ()) (Except.error ()) :=
  C8_amended ⟨false, some 5⟩ (Except.error ()) (Except.error ())

/-! ## Tanker market model: buyer parameters and inactivity (claim C10) -/

/-- The consumer-agent attributes read by the parameter assignment loop
(market.py lines 1023-1048). -/
structure ConsumerAgent where
  representedUnits : ℚ
  pipedConsumption : ℚ
  sigma : ℚ
  sigma2 : ℚ

/-- One buyer's Pyomo parameters: `hunits`, `coefs`, `expos`, `pw_qs`,
`pw_css` and `is_hix_actives`.  The activity bound defaults to
`float("inf")` (modelled as `none`, i.e. no bound) and is set to `0.0`
(`some 0`) for buyers forced out of the market. -/
structure BuyerParams where
  hunits : ℚ
  coefs : ℚ
  expos : ℚ
  pwQs : ℚ
  pwCss : ℚ
  activeBound : Option ℚ

/-- The main assignment loop, per buyer (market.py lines 1031-1048): a buyer
with positive represented units and positive piped consumption gets its
utility coefficients and piped-consumption parameters; otherwise every
coefficient is zeroed (units set to the placeholder `1.0`) and
`is_hix_actives` is set to `0.0`.  `logPiped` stands for
`log(ha.piped_consumption)`, supplied by the caller since it is only used in
the active branch. -/
def TM.buyerParams (ha : ConsumerAgent) (logPiped : ℚ) : BuyerParams :=
  if 0 < ha.representedUnits ∧ 0 < ha.pipedConsumption then
    ⟨ha.representedUnits, ha.sigma, ha.sigma2, ha.pipedConsumption,
      (ha.sigma * logPiped - ha.sigma + ha.sigma2) * ha.pipedConsumption,
      none⟩
  else
    ⟨1, 0, 0, 0, 0, some 0⟩

/-- Constraint `c4` (`inactivity_constraint`, market.py lines 1138-1140): a
buyer's total purchases over its eligible seller pairs are bounded by
`is_hix_actives[h]`; an unset (`inf`) bound constrains nothing. -/
def TM.inactivityOk (hsF : ℕ → List ℕ) (params : ℕ → BuyerParams)
    (xs : ℕ → ℕ → ℚ) (h : ℕ) : Prop :=
  match (params h).activeBound with
  | none => True
  | some b => ((hsF h).map fun f => xs h f).sum ≤ b

/-- Constraint `c3` (`sales_ceiling_constraint`, market.py lines 1134-1136):
a seller's total sales over its eligible buyer pairs are bounded by
`f_qmax[f]`. -/
def TM.salesCeilingOk (fsH : ℕ → List ℕ) (fQmax : ℕ → ℚ)
    (xs : ℕ → ℕ → ℚ) (f : ℕ) : Prop :=
  ((fsH f).map fun h => xs h f).sum ≤ fQmax f

/-- Feasibility for the tanker market model: the purchase variables `xs`
(domain `NonNegativeReals`, market.py line 1104) are nonnegative and satisfy
the `c3` and `c4` constraint families over the buyer and seller index sets. -/
def TM.feasible (hixs fixs : List ℕ) (hsF fsH : ℕ → List ℕ)
    (params : ℕ → BuyerParams) (fQmax : ℕ → ℚ) (xs : ℕ → ℕ → ℚ) : Prop :=
  (∀ h f, 0 ≤ xs h f) ∧
  (∀ f ∈ fixs, TM.salesCeilingOk fsH fQmax xs f) ∧
  (∀ h ∈ hixs, TM.inactivityOk hsF params xs h)

/-- A list of nonnegative rationals with nonpositive sum is all zeros. -/
theorem list_sum_nonpos_all_zero {l : List ℚ} (hn : ∀ x ∈ l, 0 ≤ x)
    (hs : l.sum ≤ 0) : ∀ x ∈ l, x = 0 := by
  induction l with
  | nil => simp
  | cons a tl ih =>
    have ha : 0 ≤ a := hn a (List.mem_cons_self a tl)
    have htl : ∀ x ∈ tl, 0 ≤ x := fun x hx => hn x (List.mem_cons_of_mem a hx)
    have hsum : 0 ≤ tl.sum := List.sum_nonneg htl
    rw [List.sum_cons] at hs
    intro x hx
    rcases List.mem_cons.mp hx with rfl | hx2
    · linarith
    · exact ih htl (by linarith) x hx2

/-- C10: a buyer whose represented units or piped consumption are not
strictly positive is forced out of the market: its utility coefficients and
piped-consumption parameters are zeroed, `is_hix_actives` becomes `0`, and —
together with the nonnegative variable domain — every feasible solution
gives that buyer zero traded volume on every one of its seller pairs. -/
theorem C10_inactive_buyer (hixs fixs : List ℕ) (hsF fsH : ℕ → List ℕ)
    (params : ℕ → BuyerParams) (fQmax : ℕ → ℚ) (xs : ℕ → ℕ → ℚ)
    (ha : ConsumerAgent) (logPiped : ℚ) (h0 : ℕ)
    (hmem : h0 ∈ hixs)
    (hpar : params h0 = TM.buyerParams ha logPiped)
    (hinactive : ¬(0 < ha.representedUnits ∧ 0 < ha.pipedConsumption))
    (hfeas : TM.feasible hixs fixs hsF fsH params fQmax xs) :
    (params h0).coefs = 0 ∧ (params h0).expos = 0 ∧
    (params h0).pwQs = 0 ∧ (params h0).pwCss = 0 ∧
    (params h0).activeBound = some 0 ∧
    ∀ f ∈ hsF h0, xs h0 f = 0 := by
  have hp : params h0 = ⟨1, 0, 0, 0, 0, some 0⟩ := by
    rw [hpar]
    unfold TM.buyerParams
    rw [if_neg hinactive]
  refine ⟨by rw [hp], by rw [hp], by rw [hp], by rw [hp], by rw [hp], ?_⟩
  have hcon : ((hsF h0).map fun f => xs h0 f).sum ≤ 0 := by
    have hc := hfeas.2.2 h0 hmem
    unfold TM.inactivityOk at hc
    rw [hp] at hc
    exact hc
  intro f hf
  exact list_sum_nonpos_all_zero
    (by
      intro x hx
      obtain ⟨f', _, rfl⟩ := List.mem_map.mp hx
      exact hfeas.1 h0 f')
    hcon (xs h0 f) (List.mem_map_of_mem _ hf)

/-- C10, witness: a one-buyer, one-seller market whose only buyer has zero
represented units; the zero assignment is feasible and the theorem forces
its traded volume to zero. -/
theorem C10_inactive_buyer_witness :
    ¬(0 < (0 : ℚ) ∧ 0 < (3 : ℚ)) ∧
    TM.feasible [0] [0] (fun _ => [0]) (fun _ => [0])
      (fun _ => TM.buyerParams ⟨0, 3, 2, 1⟩ 9) (fun _ => 1) (fun _ _ => 0) ∧
    ∀ f ∈ [0], (fun _ _ => (0 : ℚ)) 0 f = 0 := by
  have hfeas : TM.feasible [0] [0] (fun _ => [0]) (fun _ => [0])
      (fun _ => TM.buyerParams ⟨0, 3, 2, 1⟩ 9) (fun _ => 1) (fun _ _ => 0) := by
    refine ⟨fun h f => le_refl 0, ?_, ?_⟩
    · intro f hf
      unfold TM.salesCeilingOk
      norm_num
    · intro h hh
      unfold TM.inactivityOk TM.buyerParams
      norm_num
  have hinactive : ¬(0 < (0 : ℚ) ∧ 0 < (3 : ℚ)) := by norm_num
  have h10 := C10_inactive_buyer [0] [0] (fun _ => [0]) (fun _ => [0])
    (fun _ => TM.buyerParams ⟨0, 3, 2, 1⟩ 9) (fun _ => 1) (fun _ _ => 0)
    ⟨0, 3, 2, 1⟩ 9 0 (List.mem_singleton.mpr rfl) rfl hinactive hfeas
  exact ⟨hinactive, hfeas, h10.2.2.2.2.2⟩

/-! ## Tanker market disaggregation (claim C9): cleared prices -/

/-- One farm of a seller group: `tanker_offer_quantity` and
`tanker_water_price`. -/
structure FarmAgent where
  offer : ℚ
  waterPrice : ℚ

/-- The data the disaggregation phase of `det_tanker_market_contracts` reads
(market.py lines 1374-1418): the consumers of each subdistrict
(`ds_hindices`), the eligible farm groups of each subdistrict
(`ds_findices`), the farm groups themselves (`all_fewer_farms`), the road
distance between a subdistrict and a farm group (already divided by 1000),
and the transport cost coefficient. -/
structure MarketDisagg where
  subdistConsumers : ℕ → List ℕ
  subdistFarms : ℕ → List ℕ
  farmGroup : ℕ → List FarmAgent
  distance : ℕ → ℕ → ℚ
  coef : ℚ

/-- `subdist_purchase` (market.py line 1378): the solved volumes bought from
farm group `f` by the consumers of subdistrict `d`. -/
def TM.purchase (g : MarketDisagg) (xs : ℕ → ℕ → ℚ) (d f : ℕ) : ℚ :=
  ((g.subdistConsumers d).map fun h => xs h f).sum

/-- `mean_price` at disaggregation time (market.py line 1388): the mean
`tanker_water_price` over all farms of the group. -/
def TM.meanPrice (g : MarketDisagg) (f : ℕ) : ℚ :=
  ((g.farmGroup f).map FarmAgent.waterPrice).sum /
    ((g.farmGroup f).length : ℚ)

/-- `min_subdist_price` (market.py line 1389): the distance-scaled transport
cost plus the seller group's mean offer price. -/
def TM.minSubdistPrice (g : MarketDisagg) (d f : ℕ) : ℚ :=
  TM.meanPrice g f + g.coef * g.distance d f

/-- One step of the buyer-price loop (market.py lines 1377-1391): a seller
with positive subdistrict purchase raises the running `da.tanker_price`
whenever its pair minimum price exceeds it. -/
def TM.priceStep (g : MarketDisagg) (xs : ℕ → ℕ → ℚ) (d : ℕ)
    (acc : ℚ) (f : ℕ) : ℚ :=
  if 0 < TM.purchase g xs d f ∧ acc < TM.minSubdistPrice g d f then
    TM.minSubdistPrice g d f
  else acc

/-- `da.tanker_price` after the loop: the fold of `priceStep` over the
subdistrict's eligible farm groups, starting from the reset value `0.0`. -/
def TM.subdistPrice (g : MarketDisagg) (xs : ℕ → ℕ → ℚ) (d : ℕ) : ℚ :=
  (g.subdistFarms d).foldl (TM.priceStep g xs d) 0

/-- The per-buyer cleared price written to a consumer with positive
represented units (market.py lines 1413-1417); a consumer with no
represented units gets `0`. -/
def TM.consumerFinalPrice (g : MarketDisagg) (xs : ℕ → ℕ → ℚ) (d : ℕ)
    (units : ℚ) : ℚ :=
  if 0 < units then TM.subdistPrice g xs d else 0

/-- `offer_sum` of a farm group (market.py line 1400). -/
def TM.offerSum (g : MarketDisagg) (f : ℕ) : ℚ :=
  ((g.farmGroup f).map FarmAgent.offer).sum

/-- `_tanker_sale` for one farm and one subdistrict (market.py lines
1403-1404): the subdistrict's purchase from the group, split by offer
share. -/
def TM.farmSaleFrom (g : MarketDisagg) (xs : ℕ → ℕ → ℚ) (f d : ℕ)
    (fa : FarmAgent) : ℚ :=
  TM.purchase g xs d f * (fa.offer / TM.offerSum g f)

/-- `_tanker_price` for one farm and one subdistrict (market.py line 1407):
the subdistrict's cleared price minus the pair's transport cost. -/
def TM.farmPriceAt (g : MarketDisagg) (xs : ℕ → ℕ → ℚ) (f d : ℕ) : ℚ :=
  TM.subdistPrice g xs d - g.coef * g.distance d f

/-- A farm's mutable sale state across the subdistrict loop:
`gw_sale_to_tanker`, `tanker_market_revenue`, `final_tanker_price`. -/
structure FarmSaleState where
  saleTotal : ℚ
  revenue : ℚ
  finalPrice : ℚ

/-- The farm update for one subdistrict (market.py lines 1393-1411): when
the subdistrict bought from the group and the group's offer sum is positive,
the farm accumulates its sale share and revenue, and `final_tanker_price` is
re-assigned to `revenue / saleTotal` while the running total is positive. -/
def TM.farmUpdateStep (g : MarketDisagg) (xs : ℕ → ℕ → ℚ) (f : ℕ)
    (fa : FarmAgent) (st : FarmSaleState) (d : ℕ) : FarmSaleState :=
  if 0 < TM.purchase g xs d f ∧ 0 < TM.offerSum g f then
    let sale := TM.farmSaleFrom g xs f d fa
    let total := st.saleTotal + sale
    let rev := st.revenue + TM.farmPriceAt g xs f d * sale
    ⟨total, rev, if 0 < total then rev / total else st.finalPrice⟩
  else st

/-- A farm's final sale state after the disaggregation: the fold of
`farmUpdateStep` over the subdistricts (in loop order) whose eligible farm
list contains the group, starting from the reset state (market.py lines
929-934). -/
def TM.farmSaleResult (g : MarketDisagg) (xs : ℕ → ℕ → ℚ) (dixs : List ℕ)
    (f : ℕ) (fa : FarmAgent) : FarmSaleState :=
  (dixs.filter fun d => decide (f ∈ g.subdistFarms d)).foldl
    (TM.farmUpdateStep g xs f fa) ⟨0, 0, 0⟩

/-- Specification of the buyer-price fold: the running price never
decreases, ends at or above every positive-purchase seller's pair minimum
price, and is either the start value or one of those pair minimum prices. -/
theorem TM.priceFold_spec (g : MarketDisagg) (xs : ℕ → ℕ → ℚ) (d : ℕ) :
    ∀ (l : List ℕ) (acc : ℚ),
      acc ≤ l.foldl (TM.priceStep g xs d) acc ∧
      (∀ f ∈ l, 0 < TM.purchase g xs d f →
        TM.minSubdistPrice g d f ≤ l.foldl (TM.priceStep g xs d) acc) ∧
      (l.foldl (TM.priceStep g xs d) acc = acc ∨
        ∃ f ∈ l, 0 < TM.purchase g xs d f ∧
          l.foldl (TM.priceStep g xs d) acc = TM.minSubdistPrice g d f) := by
  intro l
  induction l with
  | nil =>
    intro acc
    refine ⟨le_refl _, ?_, Or.inl rfl⟩
    intro f hf
    cases hf
  | cons a tl ih =>
    intro acc
    rw [List.foldl_cons]
    obtain ⟨ihm, ihb, iha⟩ := ih (TM.priceStep g xs d acc a)
    have hstep_ge : acc ≤ TM.priceStep g xs d acc a := by
      unfold TM.priceStep
      split
      · next h => exact le_of_lt h.2
      · exact le_refl _
    have hstep_a : 0 < TM.purchase g xs d a →
        TM.minSubdistPrice g d a ≤ TM.priceStep g xs d acc a := by
      intro hp
      unfold TM.priceStep
      split
      · exact le_refl _
      · next h =>
        push_neg at h
        exact h hp
    refine ⟨le_trans hstep_ge ihm, ?_, ?_⟩
    · intro f hf hpf
      rcases List.mem_cons.mp hf with rfl | hf2
      · exact le_trans (hstep_a hpf) ihm
      · exact ihb f hf2 hpf
    · rcases iha with heq | ⟨f, hf, hpf, heq⟩
      · by_cases h : 0 < TM.purchase g xs d a ∧ acc < TM.minSubdistPrice g d a
        · refine Or.inr ⟨a, List.mem_cons_self a tl, h.1, ?_⟩
          rw [heq]
          unfold TM.priceStep
          rw [if_pos h]
        · refine Or.inl ?_
          rw [heq]
          unfold TM.priceStep
          rw [if_neg h]
      · exact Or.inr ⟨f, List.mem_cons_of_mem a hf, hpf, heq⟩

/-- Invariant of the farm sale fold: the running sale total stays
nonnegative, the recorded final price times the sale total always equals the
accumulated revenue, and a zero sale total forces zero revenue. -/
theorem TM.farmFold_invariant (g : MarketDisagg) (xs : ℕ → ℕ → ℚ) (f : ℕ)
    (fa : FarmAgent) (hoffer : 0 ≤ fa.offer) :
    ∀ (l : List ℕ) (st : FarmSaleState),
      0 ≤ st.saleTotal → st.finalPrice * st.saleTotal = st.revenue →
      (st.saleTotal = 0 → st.revenue = 0) →
      0 ≤ (l.foldl (TM.farmUpdateStep g xs f fa) st).saleTotal ∧
      (l.foldl (TM.farmUpdateStep g xs f fa) st).finalPrice *
          (l.foldl (TM.farmUpdateStep g xs f fa) st).saleTotal =
        (l.foldl (TM.farmUpdateStep g xs f fa) st).revenue ∧
      ((l.foldl (TM.farmUpdateStep g xs f fa) st).saleTotal = 0 →
        (l.foldl (TM.farmUpdateStep g xs f fa) st).revenue = 0) := by
  intro l
  induction l with
  | nil =>
    intro st h1 h2 h3
    exact ⟨h1, h2, h3⟩
  | cons d tl ih =>
    intro st h1 h2 h3
    rw [List.foldl_cons]
    by_cases h : 0 < TM.purchase g xs d f ∧ 0 < TM.offerSum g f
    · have hsale : 0 ≤ TM.farmSaleFrom g xs f d fa :=
        mul_nonneg (le_of_lt h.1) (div_nonneg hoffer (le_of_lt h.2))
      have hstep : TM.farmUpdateStep g xs f fa st d =
          ⟨st.saleTotal + TM.farmSaleFrom g xs f d fa,
            st.revenue +
              TM.farmPriceAt g xs f d * TM.farmSaleFrom g xs f d fa,
            if 0 < st.saleTotal + TM.farmSaleFrom g xs f d fa then
              (st.revenue +
                  TM.farmPriceAt g xs f d * TM.farmSaleFrom g xs f d fa) /
                (st.saleTotal + TM.farmSaleFrom g xs f d fa)
            else st.finalPrice⟩ := by
        unfold TM.farmUpdateStep
        rw [if_pos h]
      rw [hstep]
      apply ih
      · simp only
        linarith
      · simp only
        by_cases hpos : 0 < st.saleTotal + TM.farmSaleFrom g xs f d fa
        · rw [if_pos hpos]
          exact div_mul_cancel₀ _ (ne_of_gt hpos)
        · rw [if_neg hpos]
          have hzero : st.saleTotal + TM.farmSaleFrom g xs f d fa = 0 := by
            linarith
          have hst0 : st.saleTotal = 0 := by linarith
          have hsale0 : TM.farmSaleFrom g xs f d fa = 0 := by linarith
          rw [hzero, hsale0, h3 hst0]
          ring
      · simp only
        intro hzero
        have hst0 : st.saleTotal = 0 := by linarith
        have hsale0 : TM.farmSaleFrom g xs f d fa = 0 := by linarith
        rw [hsale0, h3 hst0]
        ring
    · have hstep : TM.farmUpdateStep g xs f fa st d = st := by
        unfold TM.farmUpdateStep
        rw [if_neg h]
      rw [hstep]
      exact ih st h1 h2 h3

/-- Modelled from the claim's words (not from the source): an average of a
seller's per-buyer prices weighted by the revenue earned from each buyer —
each pair is `(price, revenue)`. -/
def claimRevenueWeightedPrice (pairs : List (ℚ × ℚ)) : ℚ :=
  ((pairs.map fun p => p.1 * p.2).sum) / ((pairs.map Prod.snd).sum)

/-- The seller half of claim C9 as stated, for one farm: its realized price
equals the revenue-weighted average of its per-buyer prices over the
subdistricts that actually bought from its group. -/
def sellerRevenueWeightedClaim (g : MarketDisagg) (xs : ℕ → ℕ → ℚ)
    (dixs : List ℕ) (f : ℕ) (fa : FarmAgent) : Prop :=
  (TM.farmSaleResult g xs dixs f fa).finalPrice =
    claimRevenueWeightedPrice
      (((dixs.filter fun d => decide (f ∈ g.subdistFarms d)).filter
          fun d => decide (0 < TM.purchase g xs d f)).map
        fun d => (TM.farmPriceAt g xs f d,
          TM.farmPriceAt g xs f d * TM.farmSaleFrom g xs f d fa))

/-- The two-subdistrict, two-seller counterexample market: subdistrict 0 can
only buy from the cheap group 0 (mean price 1); subdistrict 1 can buy from
group 0 and from the expensive group 1 (mean price 4); all road distances
are zero. -/
def tmGeoEx : MarketDisagg where
  subdistConsumers := fun d => if d = 0 then [0] else if d = 1 then [1] else []
  subdistFarms := fun d => if d = 0 then [0] else if d = 1 then [0, 1] else []
  farmGroup := fun f => if f = 0 then [⟨1, 1⟩] else [⟨1, 4⟩]
  distance := fun _ _ => 0
  coef := 1

/-- Cleared volumes: consumer 0 buys 1 from group 0; consumer 1 buys 1 from
each group. -/
def tmXsEx : ℕ → ℕ → ℚ := fun h f =>
  if h = 0 ∧ f = 0 then 1
  else if h = 1 ∧ f = 0 then 1
  else if h = 1 ∧ f = 1 then 1 else 0

/-- C9, counterexample: in the concrete market `tmGeoEx`/`tmXsEx`, farm
group 0 sells volume 1 at price 1 to subdistrict 0 and volume 1 at price 4
to subdistrict 1 (whose cleared price is driven to 4 by the expensive
group), so the code assigns it the final price
`(1*1 + 4*1)/(1+1) = 5/2` — total revenue over total volume — while the
revenue-weighted average of its per-buyer prices is
`(1*1 + 4*4)/(1+4) = 17/5`. -/
theorem C9_counterexample :
    ¬ sellerRevenueWeightedClaim tmGeoEx tmXsEx [0, 1] 0 ⟨1, 1⟩ := by
  have hp00 : TM.purchase tmGeoEx tmXsEx 0 0 = 1 := by
    norm_num [TM.purchase, tmGeoEx, tmXsEx]
  have hp10 : TM.purchase tmGeoEx tmXsEx 1 0 = 1 := by
    norm_num [TM.purchase, tmGeoEx, tmXsEx]
  have hp11 : TM.purchase tmGeoEx tmXsEx 1 1 = 1 := by
    norm_num [TM.purchase, tmGeoEx, tmXsEx]
  have hm00 : TM.minSubdistPrice tmGeoEx 0 0 = 1 := by
    norm_num [TM.minSubdistPrice, TM.meanPrice, tmGeoEx]
  have hm10 : TM.minSubdistPrice tmGeoEx 1 0 = 1 := by
    norm_num [TM.minSubdistPrice, TM.meanPrice, tmGeoEx]
  have hm11 : TM.minSubdistPrice tmGeoEx 1 1 = 4 := by
    norm_num [TM.minSubdistPrice, TM.meanPrice, tmGeoEx]
  have hfarms1 : tmGeoEx.subdistFarms 1 = [0, 1] := rfl
  have hsp1 : TM.subdistPrice tmGeoEx tmXsEx 1 = 4 := by
    unfold TM.subdistPrice
    rw [hfarms1, List.foldl_cons, List.foldl_cons, List.foldl_nil]
    unfold TM.priceStep
    rw [hp10, hp11, hm10, hm11]
    norm_num
  have hfarms0 : tmGeoEx.subdistFarms 0 = [0] := rfl
  have hsp0 : TM.subdistPrice tmGeoEx tmXsEx 0 = 1 := by
    unfold TM.subdistPrice
    rw [hfarms0, List.foldl_cons, List.foldl_nil]
    unfold TM.priceStep
    rw [hp00, hm00]
    norm_num
  have hfp0 : TM.farmPriceAt tmGeoEx tmXsEx 0 0 = 1 := by
    unfold TM.farmPriceAt
    rw [hsp0]
    norm_num [tmGeoEx]
  have hfp1 : TM.farmPriceAt tmGeoEx tmXsEx 0 1 = 4 := by
    unfold TM.farmPriceAt
    rw [hsp1]
    norm_num [tmGeoEx]
  have hofs : TM.offerSum tmGeoEx 0 = 1 := by
    norm_num [TM.offerSum, tmGeoEx]
  have hsf0 : TM.farmSaleFrom tmGeoEx tmXsEx 0 0 ⟨1, 1⟩ = 1 := by
    unfold TM.farmSaleFrom
    rw [hp00, hofs]
    norm_num
  have hsf1 : TM.farmSaleFrom tmGeoEx tmXsEx 0 1 ⟨1, 1⟩ = 1 := by
    unfold TM.farmSaleFrom
    rw [hp10, hofs]
    norm_num
  have hstep0 : TM.farmUpdateStep tmGeoEx tmXsEx 0 ⟨1, 1⟩ ⟨0, 0, 0⟩ 0 =
      ⟨1, 1, 1⟩ := by
    unfold TM.farmUpdateStep
    rw [if_pos ⟨by rw [hp00]; norm_num, by rw [hofs]; norm_num⟩]
    simp only [hsf0, hfp0]
    norm_num
  have hstep1 : TM.farmUpdateStep tmGeoEx tmXsEx 0 ⟨1, 1⟩ ⟨1, 1, 1⟩ 1 =
      ⟨2, 5, 5 / 2⟩ := by
    unfold TM.farmUpdateStep
    rw [if_pos ⟨by rw [hp10]; norm_num, by rw [hofs]; norm_num⟩]
    simp only [hsf1, hfp1]
    norm_num
  have hfilterC : ([0, 1].filter fun d =>
      decide ((0 : ℕ) ∈ tmGeoEx.subdistFarms d)) = [0, 1] := rfl
  have hres : TM.farmSaleResult tmGeoEx tmXsEx [0, 1] 0 ⟨1, 1⟩ =
      ⟨2, 5, 5 / 2⟩ := by
    unfold TM.farmSaleResult
    rw [hfilterC, List.foldl_cons, List.foldl_cons, List.foldl_nil,
      hstep0, hstep1]
  have hfilterP : (([0, 1].filter fun d =>
        decide ((0 : ℕ) ∈ tmGeoEx.subdistFarms d)).filter fun d =>
        decide (0 < TM.purchase tmGeoEx tmXsEx d 0)) = [0, 1] := by
    rw [hfilterC]
    rw [List.filter_cons, List.filter_cons, List.filter_nil]
    rw [if_pos (by rw [decide_eq_true_eq, hp00]; norm_num),
      if_pos (by rw [decide_eq_true_eq, hp10]; norm_num)]
  have hrw : claimRevenueWeightedPrice
      ((([0, 1].filter fun d => decide ((0 : ℕ) ∈ tmGeoEx.subdistFarms d)).filter
          fun d => decide (0 < TM.purchase tmGeoEx tmXsEx d 0)).map
        fun d => (TM.farmPriceAt tmGeoEx tmXsEx 0 d,
          TM.farmPriceAt tmGeoEx tmXsEx 0 d *
            TM.farmSaleFrom tmGeoEx tmXsEx 0 d ⟨1, 1⟩)) = 17 / 5 := by
    rw [hfilterP]
    unfold claimRevenueWeightedPrice
    simp only [List.map_cons, List.map_nil, hfp0, hfp1, hsf0, hsf1]
    norm_num
  intro hclaim
  unfold sellerRevenueWeightedClaim at hclaim
  rw [hres, hrw] at hclaim
  norm_num at hclaim

/-- Behaviour established by the amended claim C9 for one subdistrict `d`,
one consumer with `units` represented units, and one farm `fa` of group `f`:
the subdistrict's cleared price is the highest pair minimum price among the
groups its consumers actually bought from (given nonnegative pair prices and
at least one purchase), every consumer with positive represented units is
assigned exactly that price, and the farm's realized price is the
volume-weighted average of its per-subdistrict prices — its accumulated
revenue divided by its total volume sold. -/
def tankerPriceBehavior (g : MarketDisagg) (xs : ℕ → ℕ → ℚ) (d : ℕ)
    (dixs : List ℕ) (f : ℕ) (fa : FarmAgent) (units : ℚ) : Prop :=
  (∃ f' ∈ g.subdistFarms d, 0 < TM.purchase g xs d f' ∧
    TM.subdistPrice g xs d = TM.minSubdistPrice g d f') ∧
  (∀ f' ∈ g.subdistFarms d, 0 < TM.purchase g xs d f' →
    TM.minSubdistPrice g d f' ≤ TM.subdistPrice g xs d) ∧
  (0 < units →
    TM.consumerFinalPrice g xs d units = TM.subdistPrice g xs d) ∧
  (TM.farmSaleResult g xs dixs f fa).finalPrice *
      (TM.farmSaleResult g xs dixs f fa).saleTotal =
    (TM.farmSaleResult g xs dixs f fa).revenue

/-- C9, amended: after a market solve, a subdistrict's cleared price is the
highest per-pair minimum price (distance-scaled transport cost plus the
seller group's mean offer price) among the groups from which its consumers
collectively bought a positive volume — provided those pair prices are
nonnegative and at least one purchase happened — and every consumer of the
subdistrict with positive represented units receives that price; each farm's
realized price satisfies `price * volume = revenue`, i.e. it is the
volume-weighted average (total revenue over total volume) of its
per-subdistrict prices, not their revenue-weighted average. -/
theorem C9_amended (g : MarketDisagg) (xs : ℕ → ℕ → ℚ) (d : ℕ)
    (dixs : List ℕ) (f : ℕ) (fa : FarmAgent) (units : ℚ)
    (hoffer : 0 ≤ fa.offer)
    (hprice : ∀ f' ∈ g.subdistFarms d, 0 ≤ TM.minSubdistPrice g d f')
    (hactive : ∃ f' ∈ g.subdistFarms d, 0 < TM.purchase g xs d f') :
    tankerPriceBehavior g xs d dixs f fa units := by
  obtain ⟨hmono, hbound, hatt⟩ :=
    TM.priceFold_spec g xs d (g.subdistFarms d) 0
  have hfold : TM.subdistPrice g xs d =
      (g.subdistFarms d).foldl (TM.priceStep g xs d) 0 := rfl
  refine ⟨?_, ?_, ?_, ?_⟩
  · rcases hatt with heq | ⟨f', hf', hpf', heq⟩
    · obtain ⟨f0, hf0, hpf0⟩ := hactive
      refine ⟨f0, hf0, hpf0, ?_⟩
      have h1 := hbound f0 hf0 hpf0
      have h2 := hprice f0 hf0
      rw [hfold, heq]
      rw [heq] at h1
      linarith
    · exact ⟨f', hf', hpf', by rw [hfold, heq]⟩
  · intro f' hf' hpf'
    rw [hfold]
    exact hbound f' hf' hpf'
  · intro hu
    unfold TM.consumerFinalPrice
    rw [if_pos hu]
  · exact (TM.farmFold_invariant g xs f fa hoffer
      (dixs.filter fun d' => decide (f ∈ g.subdistFarms d'))
      ⟨0, 0, 0⟩ (le_refl 0) (by norm_num) (fun _ => rfl)).2.1

/-- C9, witness: the amended behaviour in the concrete market
`tmGeoEx`/`tmXsEx` at subdistrict 1, a consumer with 2 represented units,
and the single farm of group 0. -/
theorem C9_amended_witness :
    (0 : ℚ) ≤ (1 : ℚ) ∧
    (∀ f' ∈ tmGeoEx.subdistFarms 1,
      0 ≤ TM.minSubdistPrice tmGeoEx 1 f') ∧
    (∃ f' ∈ tmGeoEx.subdistFarms 1,
      0 < TM.purchase tmGeoEx tmXsEx 1 f') ∧
    tankerPriceBehavior tmGeoEx tmXsEx 1 [0, 1] 0 ⟨1, 1⟩ 2 := by
  have hprice : ∀ f' ∈ tmGeoEx.subdistFarms 1,
      0 ≤ TM.minSubdistPrice tmGeoEx 1 f' := by
    intro f' hf'
    have hf2 : f' = 0 ∨ f' = 1 := by
      have : f' ∈ [0, 1] := hf'
      simpa using this
    rcases hf2 with rfl | rfl
    · norm_num [TM.minSubdistPrice, TM.meanPrice, tmGeoEx]
    · norm_num [TM.minSubdistPrice, TM.meanPrice, tmGeoEx]
  have hactive : ∃ f' ∈ tmGeoEx.subdistFarms 1,
      0 < TM.purchase tmGeoEx tmXsEx 1 f' := by
    refine ⟨0, by norm_num [tmGeoEx], ?_⟩
    norm_num [TM.purchase, tmGeoEx, tmXsEx]
  exact ⟨by norm_num, hprice, hactive,
    C9_amended tmGeoEx tmXsEx 1 [0, 1] 0 ⟨1, 1⟩ 2 (by norm_num)
      hprice hactive⟩

end JWM
